import Mathlib

/-!
Verification development for the `rand` package of eudico
(chain randomness derivation: `DrawRandomness`, the version-gated
dispatch `GetChainRandomness` / `GetBeaconRandomness`, the anchor
lookup `GetBeaconRandomnessTipset`, and the backward beacon-entry scan
`extractBeaconEntryForEpoch`).

Bytes are modelled as `List Nat` (each entry `< 256`), 64-bit words as
`Nat` reduced modulo `2 ^ 64`, and Go's `int64` values as `Int`
(serialized via their two's-complement residue modulo `2 ^ 64`).
-/

/-- A byte string: a list of naturals, each intended `< 256`. -/
abbrev Bytes := List Nat

/-! ### BLAKE2b-256 (RFC 7693), the hash primitive used by `DrawRandomness`
(`blake2b.New256` / `blake2b.Sum256` from `minio/blake2b-simd`). -/

/-- `2 ^ 64`, the word modulus of BLAKE2b. -/
def MASK64 : Nat := 18446744073709551616

/-- 64-bit modular addition. -/
def add64 (a b : Nat) : Nat := (a + b) % MASK64

/-- Bitwise xor; on inputs `< 2 ^ 64` the result stays `< 2 ^ 64`. -/
def xor64 (a b : Nat) : Nat := a ^^^ b

/-- 64-bit right rotation by `n` (for `0 < n < 64`, inputs `< 2 ^ 64`). -/
def rotr64 (x n : Nat) : Nat := (x >>> n) ||| ((x <<< (64 - n)) % MASK64)

/-- The BLAKE2b initialization vector (the SHA-512 IV). -/
def blakeIV : List Nat :=
  [0x6a09e667f3bcc908, 0xbb67ae8584caa73b, 0x3c6ef372fe94f82b, 0xa54ff53a5f1d36f1,
   0x510e527fade682d1, 0x9b05688c2b3e6c1f, 0x1f83d9abfb41bd6b, 0x5be0cd19137e2179]

/-- The ten BLAKE2b message-word permutations. -/
def blakeSigma : List (List Nat) :=
  [[0, 1, 2, 3, 4, 5, 6, 7, 8, 9, 10, 11, 12, 13, 14, 15],
   [14, 10, 4, 8, 9, 15, 13, 6, 1, 12, 0, 2, 11, 7, 5, 3],
   [11, 8, 12, 0, 5, 2, 15, 13, 10, 14, 3, 6, 7, 1, 9, 4],
   [7, 9, 3, 1, 13, 12, 11, 14, 2, 6, 5, 10, 4, 0, 15, 8],
   [9, 0, 5, 7, 2, 4, 10, 15, 14, 1, 11, 12, 6, 8, 3, 13],
   [2, 12, 6, 10, 0, 11, 8, 3, 4, 13, 7, 5, 15, 14, 1, 9],
   [12, 5, 1, 15, 14, 13, 4, 10, 0, 7, 6, 3, 9, 2, 8, 11],
   [13, 11, 7, 14, 12, 1, 3, 9, 5, 0, 15, 4, 8, 6, 2, 10],
   [6, 15, 14, 9, 11, 3, 0, 8, 12, 2, 13, 7, 1, 4, 10, 5],
   [10, 2, 8, 4, 7, 6, 1, 5, 15, 11, 9, 14, 3, 12, 13, 0]]

/-- The BLAKE2b `G` mixing function acting on a 16-word state `v`. -/
def blakeG (v : List Nat) (a b c d x y : Nat) : List Nat :=
  let va := add64 (add64 (v.getD a 0) (v.getD b 0)) x
  let vd := rotr64 (xor64 (v.getD d 0) va) 32
  let vc := add64 (v.getD c 0) vd
  let vb := rotr64 (xor64 (v.getD b 0) vc) 24
  let va2 := add64 (add64 va vb) y
  let vd2 := rotr64 (xor64 vd va2) 16
  let vc2 := add64 vc vd2
  let vb2 := rotr64 (xor64 vb vc2) 63
  ((((v.set a va2).set b vb2).set c vc2).set d vd2)

/-- One BLAKE2b round: eight `G` applications with permuted message words. -/
def blakeRound (m v : List Nat) (i : Nat) : List Nat :=
  let s := blakeSigma.getD (i % 10) []
  let mk := fun j => m.getD (s.getD j 0) 0
  let v1 := blakeG v 0 4 8 12 (mk 0) (mk 1)
  let v2 := blakeG v1 1 5 9 13 (mk 2) (mk 3)
  let v3 := blakeG v2 2 6 10 14 (mk 4) (mk 5)
  let v4 := blakeG v3 3 7 11 15 (mk 6) (mk 7)
  let v5 := blakeG v4 0 5 10 15 (mk 8) (mk 9)
  let v6 := blakeG v5 1 6 11 12 (mk 10) (mk 11)
  let v7 := blakeG v6 2 7 8 13 (mk 12) (mk 13)
  blakeG v7 3 4 9 14 (mk 14) (mk 15)

/-- The BLAKE2b compression function `F(h, m, t, f)` (12 rounds). -/
def blakeCompress (h m : List Nat) (t : Nat) (f : Bool) : List Nat :=
  let v0 := h ++ blakeIV
  let v1 := v0.set 12 (xor64 (v0.getD 12 0) (t % MASK64))
  let v2 := v1.set 13 (xor64 (v1.getD 13 0) ((t / MASK64) % MASK64))
  let v3 := if f then v2.set 14 (xor64 (v2.getD 14 0) (MASK64 - 1)) else v2
  let v := (List.range 12).foldl (blakeRound m) v3
  (List.range 8).map (fun i => xor64 (xor64 (h.getD i 0) (v.getD i 0)) (v.getD (i + 8) 0))

/-- Little-endian decoding of (up to eight) bytes into a word; missing
bytes act as the zero padding of a final partial block. -/
def bytesToWord (bs : List Nat) : Nat := bs.foldr (fun b acc => acc * 256 + b % 256) 0

/-- A (zero-padded) 128-byte block as 16 little-endian words. -/
def bytesToWords (blk : List Nat) : List Nat :=
  (List.range 16).map (fun i => bytesToWord ((blk.drop (8 * i)).take 8))

/-- Little-endian serialization of a word into eight bytes. -/
def wordToBytes (w : Nat) : List Nat := (List.range 8).map (fun i => (w >>> (8 * i)) % 256)

/-- The BLAKE2b-256 initial state: IV with the parameter word
`0x01010000 xor digestLength` (digest length 32, no key) folded into `h0`. -/
def blake2bInit256 : List Nat := blakeIV.set 0 (xor64 (blakeIV.getD 0 0) 0x01010020)

/-- Process the message 128 bytes at a time; the final (possibly partial or
empty) block is compressed with the total length counter and the final flag.
`fuel` is an upper bound on the number of iterations; `msg.length + 1`
always suffices. -/
def blake2bLoop (fuel : Nat) (h : List Nat) (done : Nat) (ms : List Nat) (total : Nat) :
    List Nat :=
  match fuel with
  | 0 => h
  | fuel + 1 =>
    if ms.length ≤ 128 then
      blakeCompress h (bytesToWords ms) total true
    else
      blake2bLoop fuel (blakeCompress h (bytesToWords (ms.take 128)) (done + 128) false)
        (done + 128) (ms.drop 128) total

/-- BLAKE2b-256 of a byte string: the first 32 bytes of the little-endian
serialization of the final state. -/
def blake2b256 (msg : Bytes) : Bytes :=
  let h := blake2bLoop (msg.length + 1) blake2bInit256 0 msg msg.length
  ((h.take 4).map wordToBytes).flatten

/-! ### `DrawRandomness` (chain/rand/rand.go) -/

/-- Go's `binary.Write(h, binary.BigEndian, x)` for an `int64` value:
the eight big-endian bytes of the two's-complement residue of `x`. -/
def int64BE (x : Int) : Bytes :=
  let u := (x % (18446744073709551616 : Int)).toNat
  (List.range 8).map (fun i => (u >>> (8 * (7 - i))) % 256)

/-- `DrawRandomness(rbase, pers, round, entropy)`. The incremental hash `h`
is modelled as the byte stream written to it so far (`Write` appends,
`Sum` digests the accumulated stream); the Go error paths are writes to an
in-memory hash state and cannot fail, so the function is pure. -/
def DrawRandomness (rbase : Bytes) (pers : Int) (round : Int) (entropy : Bytes) : Bytes :=
  let h0 : Bytes := []
  let h1 := h0 ++ int64BE pers
  let VRFDigest := blake2b256 rbase
  let h2 := h1 ++ VRFDigest
  let h3 := h2 ++ int64BE round
  let h4 := h3 ++ entropy
  blake2b256 h4

/-- The byte stream `DrawRandomness` feeds to its hash accumulator,
written as one concatenation in the order stated by the spec. -/
def drawMessage (rbase : Bytes) (pers : Int) (round : Int) (entropy : Bytes) : Bytes :=
  int64BE pers ++ blake2b256 rbase ++ int64BE round ++ entropy

/-! ### Chain data model (types.TipSet, types.BlockHeader, types.BeaconEntry) -/

/-- `types.BeaconEntry`: a beacon round number with its opaque data bytes. -/
structure BeaconEntry where
  round : Nat
  data : Bytes
deriving DecidableEq, Repr

/-- A block ticket carrying the VRF proof used as chain-randomness base. -/
structure Ticket where
  vrfProof : Bytes
deriving DecidableEq, Repr

/-- The parts of a block header the randomness engine reads. -/
structure BlockHeader where
  ticket : Ticket
  beaconEntries : List BeaconEntry
deriving DecidableEq, Repr

/-- A tipset key (`types.NewTipSetKey(blks...)`), modelled as a list of
block-cid identifiers. -/
abbrev TipSetKey := List Nat

/-- The parts of `types.TipSet` the randomness engine reads: its height,
its ordered blocks, and its parent key. -/
structure TipSet where
  height : Int
  blks : List BlockHeader
  parents : TipSetKey
deriving DecidableEq, Repr

/-- The block header a lookup on an (invariantly nonempty) tipset defaults to. -/
def defaultBlockHeader : BlockHeader := ⟨⟨[]⟩, []⟩

/-- Modelled from the spec: `MinTicketBlock` (a lotus `types.TipSet` helper not
among the examined sources) selects the anchor tipset's first block, whose
ticket VRF proof is the chain-randomness base ("Output always derives from the
anchor tipset's first block's ticket VRF proof"; blocks of a tipset are
canonically ordered by ticket). -/
def TipSet.minTicketBlock (ts : TipSet) : BlockHeader := ts.blks.headD defaultBlockHeader

/-! ### External collaborators (§6 of the spec): chain store, beacon schedule,
network-version getter. Their implementations live outside the examined
sources, so they are carried as function-valued fields. -/

/-- Modelled from the spec: the chain-store collaborator contract
(`LoadTipSet`, `GetTipsetByHeight`, `GetLatestBeaconEntry` of
`store.ChainStore` are not among the examined sources). `none` stands for
any storage failure; the `Bool` argument of `getTipsetByHeight` is the
lookback search-policy flag. -/
structure ChainStore where
  loadTipSet : TipSetKey → Option TipSet
  getTipsetByHeight : Int → TipSet → Bool → Option TipSet
  getLatestBeaconEntry : TipSet → Option BeaconEntry

/-- Modelled from the spec: a beacon source's
`MaxBeaconRoundForEpoch(version, epoch)` collaborator. -/
structure BeaconSource where
  maxBeaconRoundForEpoch : Nat → Int → Nat

/-- Modelled from the spec: the beacon schedule's `BeaconForEpoch` collaborator. -/
structure BeaconSchedule where
  beaconForEpoch : Int → BeaconSource

/-- `NetworkVersionGetter` (the `context.Context` argument carries no data
the derivation reads and is dropped); versions are the naturals, ordered. -/
abbrev NetworkVersionGetter := Int → Nat

/-- The error values surfaced by the randomness engine. -/
inductive RandErr where
  /-- "cannot draw randomness from the future" -/
  | futureEpoch : RandErr
  /-- a collaborator lookup failure, propagated unchanged -/
  | storeErr : RandErr
  /-- "didn't find beacon for round %d (epoch %d)" -/
  | beaconNotFound (round : Nat) (epoch : Int) : RandErr
deriving DecidableEq, Repr

deriving instance DecidableEq for Except

/-- `stateRand`: the chain-derived randomness source. -/
structure StateRand where
  cs : ChainStore
  blks : TipSetKey
  beacon : BeaconSchedule
  networkVersionGetter : NetworkVersionGetter

/-- `(sr *stateRand) GetBeaconRandomnessTipset(ctx, round, lookback)`:
load the head tipset from `sr.blks`, reject rounds beyond its height,
clamp negative rounds to zero, and look the anchor up by height. -/
def StateRand.GetBeaconRandomnessTipset (sr : StateRand) (round : Int) (lookback : Bool) :
    Except RandErr TipSet :=
  match sr.cs.loadTipSet sr.blks with
  | none => .error .storeErr
  | some ts =>
    if round > ts.height then .error .futureEpoch
    else
      let searchHeight := if round < 0 then 0 else round
      match sr.cs.getTipsetByHeight searchHeight ts lookback with
      | none => .error .storeErr
      | some randTs => .ok randTs

/-- `(sr *stateRand) getChainRandomness(ctx, pers, round, entropy, lookback)`:
the same prologue (the Go source repeats it rather than calling
`GetBeaconRandomnessTipset`), then draw from the min-ticket block's VRF proof. -/
def StateRand.getChainRandomness (sr : StateRand) (pers : Int) (round : Int)
    (entropy : Bytes) (lookback : Bool) : Except RandErr Bytes :=
  match sr.cs.loadTipSet sr.blks with
  | none => .error .storeErr
  | some ts =>
    if round > ts.height then .error .futureEpoch
    else
      let searchHeight := if round < 0 then 0 else round
      match sr.cs.getTipsetByHeight searchHeight ts lookback with
      | none => .error .storeErr
      | some randTs =>
        let mtb := randTs.minTicketBlock
        .ok (DrawRandomness mtb.ticket.vrfProof pers round entropy)

/-- `entries.find?` step of the backward scan: the first entry of a block's
beacon-entry list whose round equals the target (`v.Round == round`). -/
def tsFindRound (ts : TipSet) (round : Nat) : Option BeaconEntry :=
  ((ts.blks.headD defaultBlockHeader).beaconEntries).find? (fun v => v.round == round)

/-- The `for i := 0; i < 20; i++` loop of `extractBeaconEntryForEpoch`,
with `i` iterations left: check the first block of the current tipset for
the target round, else hop to the parent tipset. -/
def StateRand.extractLoop (sr : StateRand) (round : Nat) (epoch : Int) :
    Nat → TipSet → Except RandErr BeaconEntry
  | 0, _ => .error (.beaconNotFound round epoch)
  | i + 1, randTs =>
    match tsFindRound randTs round with
    | some v => .ok v
    | none =>
      match sr.cs.loadTipSet randTs.parents with
      | none => .error .storeErr
      | some next => sr.extractLoop round epoch i next

/-- `(sr *stateRand) extractBeaconEntryForEpoch(ctx, filecoinEpoch)`:
anchor by the no-lookback search, compute the target round from the beacon
schedule, then scan backward through at most 20 tipsets. -/
def StateRand.extractBeaconEntryForEpoch (sr : StateRand) (filecoinEpoch : Int) :
    Except RandErr BeaconEntry :=
  match sr.GetBeaconRandomnessTipset filecoinEpoch false with
  | .error e => .error e
  | .ok randTs =>
    let nv := sr.networkVersionGetter filecoinEpoch
    let round := (sr.beacon.beaconForEpoch filecoinEpoch).maxBeaconRoundForEpoch nv filecoinEpoch
    sr.extractLoop round filecoinEpoch 20 randTs

/-- `getBeaconRandomnessV1` (network v0-12): lookback anchor search, then
the anchor's latest beacon entry. -/
def StateRand.getBeaconRandomnessV1 (sr : StateRand) (pers : Int) (round : Int)
    (entropy : Bytes) : Except RandErr Bytes :=
  match sr.GetBeaconRandomnessTipset round true with
  | .error e => .error e
  | .ok randTs =>
    match sr.cs.getLatestBeaconEntry randTs with
    | none => .error .storeErr
    | some be => .ok (DrawRandomness be.data pers round entropy)

/-- `getBeaconRandomnessV2` (network v13): no-lookback anchor search, then
the anchor's latest beacon entry. -/
def StateRand.getBeaconRandomnessV2 (sr : StateRand) (pers : Int) (round : Int)
    (entropy : Bytes) : Except RandErr Bytes :=
  match sr.GetBeaconRandomnessTipset round false with
  | .error e => .error e
  | .ok randTs =>
    match sr.cs.getLatestBeaconEntry randTs with
    | none => .error .storeErr
    | some be => .ok (DrawRandomness be.data pers round entropy)

/-- `getBeaconRandomnessV3` (network v14 and on): negative epochs fall back
to the v13 path; otherwise extract the exact beacon entry and draw from it. -/
def StateRand.getBeaconRandomnessV3 (sr : StateRand) (pers : Int) (filecoinEpoch : Int)
    (entropy : Bytes) : Except RandErr Bytes :=
  if filecoinEpoch < 0 then sr.getBeaconRandomnessV2 pers filecoinEpoch entropy
  else
    match sr.extractBeaconEntryForEpoch filecoinEpoch with
    | .error e => .error e
    | .ok be => .ok (DrawRandomness be.data pers filecoinEpoch entropy)

/-- `(sr *stateRand) GetChainRandomness`: version-gated choice of the
lookback flag (v13 and on: no lookback). -/
def StateRand.GetChainRandomness (sr : StateRand) (pers : Int) (filecoinEpoch : Int)
    (entropy : Bytes) : Except RandErr Bytes :=
  let nv := sr.networkVersionGetter filecoinEpoch
  if nv ≥ 13 then sr.getChainRandomness pers filecoinEpoch entropy false
  else sr.getChainRandomness pers filecoinEpoch entropy true

/-- `(sr *stateRand) GetBeaconRandomness`: version-gated choice among the
three beacon-randomness generations. -/
def StateRand.GetBeaconRandomness (sr : StateRand) (pers : Int) (filecoinEpoch : Int)
    (entropy : Bytes) : Except RandErr Bytes :=
  let nv := sr.networkVersionGetter filecoinEpoch
  if nv ≥ 14 then sr.getBeaconRandomnessV3 pers filecoinEpoch entropy
  else if nv = 13 then sr.getBeaconRandomnessV2 pers filecoinEpoch entropy
  else sr.getBeaconRandomnessV1 pers filecoinEpoch entropy

/-- The tipset reached after `k` parent hops of the backward scan, starting
from `ts` (`none` once a parent load fails). -/
def visitedTS (cs : ChainStore) : Nat → TipSet → Option TipSet
  | 0, ts => some ts
  | k + 1, ts =>
    match cs.loadTipSet ts.parents with
    | none => none
    | some t => visitedTS cs k t

/-! ### Randomness source facade construction (`NewStateRand`, chain/rand/rand.go)
and the insecure bypass used under Mir consensus. -/

/-- Modelled from the spec: the process-wide consensus-algorithm flag
(`global.IsConsensusAlgorithm(global.MirConsensus)`; the `eudico-core/global`
package is not among the examined sources), made an explicit value: the
default algorithm or the alternate (Mir) algorithm. -/
inductive ConsensusAlgorithm where
  | defaultConsensus : ConsensusAlgorithm
  | mirConsensus : ConsensusAlgorithm
deriving DecidableEq, Repr

/-- Modelled from the spec: the fixed, clearly-insecure output of the
`fakeRand` bypass ("a clearly-insecure, non-chain-derived fixed/deterministic
value for every request"; `fakeRand` is not among the examined sources). -/
def fakeRandValue : Bytes := List.replicate 32 0

/-- The `vm.Rand` value `NewStateRand` returns: either the insecure
`fakeRand` bypass or the chain-derived `stateRand`. -/
inductive VMRand where
  | fakeRand : VMRand
  | stateRand (sr : StateRand) : VMRand

/-- `GetChainRandomness` through the `vm.Rand` interface; the `fakeRand`
branch is modelled from the spec (fixed value for every request). -/
def VMRand.GetChainRandomness : VMRand → Int → Int → Bytes → Except RandErr Bytes
  | .fakeRand, _, _, _ => .ok fakeRandValue
  | .stateRand sr, pers, epoch, entropy => sr.GetChainRandomness pers epoch entropy

/-- `GetBeaconRandomness` through the `vm.Rand` interface; the `fakeRand`
branch is modelled from the spec (fixed value for every request). -/
def VMRand.GetBeaconRandomness : VMRand → Int → Int → Bytes → Except RandErr Bytes
  | .fakeRand, _, _, _ => .ok fakeRandValue
  | .stateRand sr, pers, epoch, entropy => sr.GetBeaconRandomness pers epoch entropy

/-- The banner `NewStateRand` logs when the Mir bypass is taken. -/
def mirDangerWarning : String :=
  "DANGER ZONE! YOU ARE USING FAKE RANDOMNESS FOR YOUR VM AND PROOFS. USE WITH CARE!"

/-- `NewStateRand(cs, blks, b, networkVersionGetter)`: under Mir consensus log
the danger banner and return the `fakeRand` bypass, otherwise return the
chain-derived `stateRand`. The global flag read is an explicit argument and
the emitted log lines are returned alongside the constructed source. -/
def NewStateRand (algo : ConsensusAlgorithm) (cs : ChainStore) (blks : TipSetKey)
    (b : BeaconSchedule) (networkVersionGetter : NetworkVersionGetter) :
    List String × VMRand :=
  if algo = .mirConsensus then ([mirDangerWarning], .fakeRand)
  else ([], .stateRand ⟨cs, blks, b, networkVersionGetter⟩)

/-- Decidable check used to state the chain-shape invariant under a claim:
at scan position `j` from `a`, either the walk has already ended, or the
parent tipset (when loadable) sits at a strictly lower height. -/
def hopOKb (cs : ChainStore) (a : TipSet) (j : Nat) : Bool :=
  match visitedTS cs j a with
  | none => true
  | some t =>
    match cs.loadTipSet t.parents with
    | none => true
    | some t2 => decide (t2.height < t.height)

/-! ### Concrete fixtures for the witness theorems. -/

/-- A sample beacon entry (round 9). -/
def wEntry : BeaconEntry := ⟨9, [7, 7]⟩

/-- A sample ticket. -/
def wTicket : Ticket := ⟨[1, 2, 3]⟩

/-- A height-0 tipset whose parent key resolves to nothing. -/
def wGenesis : TipSet := ⟨0, [⟨wTicket, [wEntry]⟩], [99]⟩

/-- A height-10 head tipset whose parent key is `[1]`. -/
def wHead : TipSet := ⟨10, [⟨wTicket, [wEntry]⟩], [1]⟩

/-- A two-tipset store: head under key `[0]`, genesis under key `[1]`;
height lookups at height 10 and above give the head, below the genesis,
ignoring the lookback flag. -/
def wStore : ChainStore where
  loadTipSet := fun k =>
    if k = [0] then some wHead else if k = [1] then some wGenesis else none
  getTipsetByHeight := fun h _ _ => if 10 ≤ h then some wHead else some wGenesis
  getLatestBeaconEntry := fun _ => some wEntry

/-- A beacon schedule whose max round is 9 at every epoch and version. -/
def wSchedule : BeaconSchedule := ⟨fun _ => ⟨fun _ _ => 9⟩⟩

/-- A `stateRand` over `wStore` with the given constant network version. -/
def wsr (nv : Nat) : StateRand := ⟨wStore, [0], wSchedule, fun _ => nv⟩

/-- Tipset `i` of a 31-deep linear chain at heights `100 - i`; only tipset
`d` carries a beacon entry (round 9). -/
def w3tip (d i : Nat) : TipSet :=
  ⟨(100 : Int) - i, [⟨wTicket, if i = d then [⟨9, [42]⟩] else []⟩], [i + 1]⟩

/-- A store over the `w3tip d` chain (keys `[0]` through `[30]`); height
lookups always give tipset 0. -/
def w3store (d : Nat) : ChainStore where
  loadTipSet := fun k =>
    match k with
    | [i] => if i ≤ 30 then some (w3tip d i) else none
    | _ => none
  getTipsetByHeight := fun _ _ _ => some (w3tip d 0)
  getLatestBeaconEntry := fun _ => none

/-- A `stateRand` over the `w3tip d` chain, network version 15. -/
def w3sr (d : Nat) : StateRand := ⟨w3store d, [0], wSchedule, fun _ => 15⟩

/-! ### Helper lemmas -/

theorem blakeCompress_length (h m : List Nat) (t : Nat) (f : Bool) :
    (blakeCompress h m t f).length = 8 := by
  simp [blakeCompress]

theorem blake2bLoop_length (fuel : Nat) :
    ∀ h done ms total, h.length = 8 → (blake2bLoop fuel h done ms total).length = 8 := by
  induction fuel with
  | zero => intro h done ms total hh; simpa [blake2bLoop] using hh
  | succ n ih =>
    intro h done ms total hh
    unfold blake2bLoop
    split
    · exact blakeCompress_length ..
    · exact ih _ _ _ _ (blakeCompress_length ..)

theorem blake2b256_length (msg : Bytes) : (blake2b256 msg).length = 32 := by
  have h8 : (blake2bLoop (msg.length + 1) blake2bInit256 0 msg msg.length).length = 8 :=
    blake2bLoop_length _ _ _ _ _ rfl
  unfold blake2b256
  generalize hgen : blake2bLoop (msg.length + 1) blake2bInit256 0 msg msg.length = l at h8 ⊢
  rcases l with _ | ⟨a, _ | ⟨b, _ | ⟨c, _ | ⟨d, l⟩⟩⟩⟩ <;> simp_all [wordToBytes]

/-- C1: `DrawRandomness` initializes a BLAKE2b-256 accumulator and feeds,
in order, the tag as a signed 64-bit big-endian integer, the BLAKE2b-256
digest of the base (hashed once, separately, with the same primitive), the
round as a signed 64-bit big-endian integer, and the raw entropy; the
result is the accumulator's 32-byte digest. -/
theorem drawRandomness_hash_stream (rbase : Bytes) (pers round : Int) (entropy : Bytes) :
    DrawRandomness rbase pers round entropy
        = blake2b256 (int64BE pers ++ blake2b256 rbase ++ int64BE round ++ entropy)
    ∧ (DrawRandomness rbase pers round entropy).length = 32 :=
  ⟨by simp [DrawRandomness, List.append_assoc], blake2b256_length _⟩

set_option maxRecDepth 100000 in
/-- C9: for fixed base, tag and entropy, rounds `-5` and `5` have distinct
signed 64-bit big-endian encodings, hence the byte streams fed to the hash
differ; the concrete outputs differ as well. -/
theorem drawRandomness_signed_round_distinct :
    (∀ (rbase : Bytes) (pers : Int) (entropy : Bytes),
        drawMessage rbase pers (-5) entropy ≠ drawMessage rbase pers 5 entropy)
    ∧ int64BE (-5) ≠ int64BE 5
    ∧ DrawRandomness [3] 2 (-5) [116, 101, 115, 116]
        ≠ DrawRandomness [3] 2 5 [116, 101, 115, 116] := by
  refine ⟨?_, by decide, by decide⟩
  intro rbase pers entropy heq
  unfold drawMessage at heq
  have h1 := List.append_cancel_right heq
  have h2 := List.append_cancel_left h1
  exact absurd h2 (by decide)

theorem drawRandomness_signed_round_distinct_witness :
    drawMessage [] 2 (-5) [] ≠ drawMessage [] 2 5 [] :=
  drawRandomness_signed_round_distinct.1 [] 2 []

/-- C2: the derivation path is selected solely by the protocol version at
the target epoch: chain randomness runs the anchor search with the lookback
flag exactly when the version is below 13; beacon randomness runs the newest
algorithm at version 14 and above, the no-lookback anchor search followed by
the anchor's latest beacon entry at version 13, and the lookback anchor
search followed by the anchor's latest beacon entry below version 13. -/
theorem randomness_dispatch_by_version (sr : StateRand) (pers fe : Int) (entropy : Bytes) :
    (sr.GetChainRandomness pers fe entropy
        = sr.getChainRandomness pers fe entropy (decide (sr.networkVersionGetter fe < 13)))
    ∧ (sr.GetBeaconRandomness pers fe entropy =
        if 14 ≤ sr.networkVersionGetter fe then sr.getBeaconRandomnessV3 pers fe entropy
        else if sr.networkVersionGetter fe = 13 then sr.getBeaconRandomnessV2 pers fe entropy
        else sr.getBeaconRandomnessV1 pers fe entropy)
    ∧ (sr.getBeaconRandomnessV2 pers fe entropy =
        match sr.GetBeaconRandomnessTipset fe false with
        | .error e => .error e
        | .ok randTs =>
          match sr.cs.getLatestBeaconEntry randTs with
          | none => .error .storeErr
          | some be => .ok (DrawRandomness be.data pers fe entropy))
    ∧ (sr.getBeaconRandomnessV1 pers fe entropy =
        match sr.GetBeaconRandomnessTipset fe true with
        | .error e => .error e
        | .ok randTs =>
          match sr.cs.getLatestBeaconEntry randTs with
          | none => .error .storeErr
          | some be => .ok (DrawRandomness be.data pers fe entropy))
    ∧ (14 ≤ sr.networkVersionGetter fe →
        sr.GetBeaconRandomness pers fe entropy =
          if fe < 0 then sr.getBeaconRandomnessV2 pers fe entropy
          else
            match sr.extractBeaconEntryForEpoch fe with
            | .error e => .error e
            | .ok be => .ok (DrawRandomness be.data pers fe entropy)) := by
  refine ⟨?_, ?_, rfl, rfl, ?_⟩
  · by_cases h : 13 ≤ sr.networkVersionGetter fe
    · have hd : decide (sr.networkVersionGetter fe < 13) = false := by
        simp [Nat.not_lt.mpr h]
      simp [StateRand.GetChainRandomness, h, hd]
    · have hd : decide (sr.networkVersionGetter fe < 13) = true := by
        simp [Nat.lt_of_not_le h]
      simp [StateRand.GetChainRandomness, h, hd]
  · by_cases h : 14 ≤ sr.networkVersionGetter fe <;>
      simp [StateRand.GetBeaconRandomness, h]
  · intro h
    simp [StateRand.GetBeaconRandomness, h, StateRand.getBeaconRandomnessV3]

theorem randomness_dispatch_by_version_witness :
    (14 ≤ (wsr 14).networkVersionGetter 3)
    ∧ (wsr 14).GetBeaconRandomness 2 3 [] =
        (match (wsr 14).extractBeaconEntryForEpoch 3 with
         | .error e => .error e
         | .ok be => .ok (DrawRandomness be.data 2 3 [])) := by
  refine ⟨by decide, ?_⟩
  have h := (randomness_dispatch_by_version (wsr 14) 2 3 []).2.2.2.2 (by decide)
  simpa using h

/-- C4: with the head tipset loaded, both the beacon-randomness tipset
lookup and the chain-randomness path fail with the future-randomness error
exactly when the requested round exceeds the head height; a negative round
(at a non-negative head height) never triggers it and is clamped to height
zero before the tipset-by-height lookup. -/
theorem anchor_future_error_iff (sr : StateRand) (round : Int) (lookback : Bool)
    (ts : TipSet) (pers : Int) (entropy : Bytes)
    (hload : sr.cs.loadTipSet sr.blks = some ts) :
    (sr.GetBeaconRandomnessTipset round lookback = .error .futureEpoch ↔ ts.height < round)
    ∧ (sr.getChainRandomness pers round entropy lookback = .error .futureEpoch
        ↔ ts.height < round)
    ∧ (round < 0 → 0 ≤ ts.height →
        sr.GetBeaconRandomnessTipset round lookback =
          (match sr.cs.getTipsetByHeight 0 ts lookback with
           | none => .error .storeErr
           | some randTs => .ok randTs)
        ∧ sr.getChainRandomness pers round entropy lookback =
          (match sr.cs.getTipsetByHeight 0 ts lookback with
           | none => .error .storeErr
           | some randTs =>
             .ok (DrawRandomness randTs.minTicketBlock.ticket.vrfProof pers round entropy))
        ∧ sr.GetBeaconRandomnessTipset round lookback ≠ .error .futureEpoch
        ∧ sr.getChainRandomness pers round entropy lookback ≠ .error .futureEpoch) := by
  unfold StateRand.GetBeaconRandomnessTipset StateRand.getChainRandomness
  rw [hload]
  by_cases hgt : ts.height < round
  · have : round > ts.height := hgt
    simp only [this, if_pos]
    refine ⟨by simp, by simp, ?_⟩
    intro hneg hpos
    omega
  · have : ¬ round > ts.height := hgt
    simp only [this, if_neg, if_false]
    refine ⟨?_, ?_, ?_⟩
    · cases sr.cs.getTipsetByHeight (if round < 0 then 0 else round) ts lookback <;> simp
    · cases sr.cs.getTipsetByHeight (if round < 0 then 0 else round) ts lookback <;> simp
    · intro hneg _
      have hcl : (if round < 0 then (0 : Int) else round) = 0 := if_pos hneg
      rw [hcl]
      refine ⟨rfl, rfl, ?_, ?_⟩ <;>
        cases sr.cs.getTipsetByHeight 0 ts lookback <;> simp

theorem anchor_future_error_iff_witness :
    ((wsr 15).cs.loadTipSet (wsr 15).blks = some wHead)
    ∧ (wsr 15).GetBeaconRandomnessTipset (-2) true =
        (match (wsr 15).cs.getTipsetByHeight 0 wHead true with
         | none => .error .storeErr
         | some randTs => .ok randTs)
    ∧ ((wsr 15).GetBeaconRandomnessTipset 11 true = .error .futureEpoch
        ↔ wHead.height < 11) := by
  have h := anchor_future_error_iff (wsr 15) (-2) true wHead 2 [] (by decide)
  have h2 := anchor_future_error_iff (wsr 15) 11 true wHead 2 [] (by decide)
  exact ⟨by decide, (h.2.2 (by decide) (by decide)).1, h2.1⟩

/-- C6: on both chain-randomness generations, the base fed into
`DrawRandomness` is the ticket VRF proof of the anchor tipset's
min-ticket (first) block. -/
theorem chainRandomness_base_min_ticket (sr : StateRand) (pers fe : Int) (entropy : Bytes)
    (ts a : TipSet)
    (hload : sr.cs.loadTipSet sr.blks = some ts)
    (hle : fe ≤ ts.height)
    (hanchor : sr.cs.getTipsetByHeight (if fe < 0 then 0 else fe) ts
        (decide (sr.networkVersionGetter fe < 13)) = some a) :
    sr.GetChainRandomness pers fe entropy
      = .ok (DrawRandomness a.minTicketBlock.ticket.vrfProof pers fe entropy) := by
  have hngt : ¬ fe > ts.height := not_lt.mpr hle
  unfold StateRand.GetChainRandomness StateRand.getChainRandomness
  by_cases h : 13 ≤ sr.networkVersionGetter fe
  · have hd : decide (sr.networkVersionGetter fe < 13) = false := by
      simp [Nat.not_lt.mpr h]
    rw [hd] at hanchor
    simp [h, hload, hngt, hanchor]
  · have hd : decide (sr.networkVersionGetter fe < 13) = true := by
      simp [Nat.lt_of_not_le h]
    rw [hd] at hanchor
    simp [h, hload, hngt, hanchor]

theorem chainRandomness_base_min_ticket_witness :
    ((wsr 10).cs.loadTipSet (wsr 10).blks = some wHead)
    ∧ (wsr 10).GetChainRandomness 2 10 [5]
        = .ok (DrawRandomness wHead.minTicketBlock.ticket.vrfProof 2 10 [5]) := by
  refine ⟨by decide, ?_⟩
  exact chainRandomness_base_min_ticket (wsr 10) 2 10 [5] wHead wHead
    (by decide) (by decide) (by decide)

/-- C7: a strictly negative epoch under the newest beacon algorithm falls
back to the v13 path (no-lookback anchor search plus the anchor's latest
beacon entry), and with succeeding collaborators it returns a randomness
value rather than an error. -/
theorem beaconV3_negative_fallback (sr : StateRand) (pers fe : Int) (entropy : Bytes)
    (hneg : fe < 0) :
    sr.getBeaconRandomnessV3 pers fe entropy = sr.getBeaconRandomnessV2 pers fe entropy
    ∧ (14 ≤ sr.networkVersionGetter fe →
        sr.GetBeaconRandomness pers fe entropy = sr.getBeaconRandomnessV2 pers fe entropy)
    ∧ (∀ ts a be, 14 ≤ sr.networkVersionGetter fe →
        sr.cs.loadTipSet sr.blks = some ts → fe ≤ ts.height →
        sr.cs.getTipsetByHeight 0 ts false = some a →
        sr.cs.getLatestBeaconEntry a = some be →
        sr.GetBeaconRandomness pers fe entropy
          = .ok (DrawRandomness be.data pers fe entropy)) := by
  have h1 : sr.getBeaconRandomnessV3 pers fe entropy
      = sr.getBeaconRandomnessV2 pers fe entropy := by
    simp [StateRand.getBeaconRandomnessV3, hneg]
  have h2 : ∀ nvh : 14 ≤ sr.networkVersionGetter fe,
      sr.GetBeaconRandomness pers fe entropy = sr.getBeaconRandomnessV2 pers fe entropy := by
    intro nvh
    simp [StateRand.GetBeaconRandomness, nvh]
    exact h1
  refine ⟨h1, h2, ?_⟩
  intro ts a be h14 hl hle hgth hbe
  rw [h2 h14]
  have hngt : ¬ fe > ts.height := not_lt.mpr hle
  unfold StateRand.getBeaconRandomnessV2 StateRand.GetBeaconRandomnessTipset
  rw [hl]
  have hcl : (if fe < 0 then (0 : Int) else fe) = 0 := if_pos hneg
  simp [hngt, hcl, hgth, hbe]

theorem beaconV3_negative_fallback_witness :
    ((-3 : Int) < 0)
    ∧ (wsr 14).GetBeaconRandomness 2 (-3) [116]
        = .ok (DrawRandomness wEntry.data 2 (-3) [116]) := by
  refine ⟨by decide, ?_⟩
  exact (beaconV3_negative_fallback (wsr 14) 2 (-3) [116] (by decide)).2.2 wHead wGenesis
    wEntry (by decide) (by decide) (by decide) (by decide) (by decide)

/-- C10: the v0-12 and v13 beacon-randomness generations differ only in the
lookback flag passed to the anchor lookup: whenever that lookup gives the
same tipset under both flags, the two generations agree byte for byte. -/
theorem beaconV1V2_agree_on_anchor (sr : StateRand) (pers round : Int) (entropy : Bytes)
    (ts : TipSet)
    (hload : sr.cs.loadTipSet sr.blks = some ts)
    (hsame : sr.cs.getTipsetByHeight (if round < 0 then 0 else round) ts true
        = sr.cs.getTipsetByHeight (if round < 0 then 0 else round) ts false) :
    sr.getBeaconRandomnessV1 pers round entropy
      = sr.getBeaconRandomnessV2 pers round entropy := by
  unfold StateRand.getBeaconRandomnessV1 StateRand.getBeaconRandomnessV2
    StateRand.GetBeaconRandomnessTipset
  simp only [hload, hsame]

theorem beaconV1V2_agree_on_anchor_witness :
    ((wsr 12).cs.getTipsetByHeight (if (3 : Int) < 0 then 0 else 3) wHead true
        = (wsr 12).cs.getTipsetByHeight (if (3 : Int) < 0 then 0 else 3) wHead false)
    ∧ (wsr 12).getBeaconRandomnessV1 2 3 [9] = (wsr 12).getBeaconRandomnessV2 2 3 [9] := by
  refine ⟨by decide, ?_⟩
  exact beaconV1V2_agree_on_anchor (wsr 12) 2 3 [9] wHead (by decide) (by decide)

theorem tsFindRound_round {t : TipSet} {r : Nat} {v : BeaconEntry}
    (h : tsFindRound t r = some v) : v.round = r := by
  unfold tsFindRound at h
  have := List.find?_some h
  simpa using this

theorem extractLoop_found (sr : StateRand) (round : Nat) (epoch : Int) :
    ∀ d n ts v, d < n →
      (∀ j, j < d →
        (visitedTS sr.cs j ts).map (fun t => tsFindRound t round) = some none) →
      (visitedTS sr.cs d ts).map (fun t => tsFindRound t round) = some (some v) →
      sr.extractLoop round epoch n ts = .ok v := by
  intro d
  induction d with
  | zero =>
    intro n ts v hn hnone hfind
    match n, hn with
    | n + 1, _ =>
      simp only [visitedTS, Option.map_some] at hfind
      have hf : tsFindRound ts round = some v := by
        exact Option.some.inj hfind
      simp [StateRand.extractLoop, hf]
  | succ d ih =>
    intro n ts v hn hnone hfind
    match n, hn with
    | n + 1, hn =>
      have h0 : tsFindRound ts round = none := by
        have := hnone 0 (Nat.succ_pos d)
        simp only [visitedTS, Option.map_some] at this
        exact Option.some.inj this
      cases hl : sr.cs.loadTipSet ts.parents with
      | none =>
        have : visitedTS sr.cs (d + 1) ts = none := by
          simp [visitedTS, hl]
        rw [this] at hfind
        simp at hfind
      | some next =>
        have hshift : ∀ k, visitedTS sr.cs (k + 1) ts = visitedTS sr.cs k next := by
          intro k
          simp [visitedTS, hl]
        have hgoal : sr.extractLoop round epoch (n + 1) ts
            = sr.extractLoop round epoch n next := by
          simp [StateRand.extractLoop, h0, hl]
        rw [hgoal]
        exact ih n next v (Nat.lt_of_succ_lt_succ hn)
          (fun j hj => by rw [← hshift j]; exact hnone (j + 1) (Nat.succ_lt_succ hj))
          (by rw [← hshift d]; exact hfind)

theorem extractLoop_notFound (sr : StateRand) (round : Nat) (epoch : Int) :
    ∀ n ts,
      (∀ j, j < n →
        (visitedTS sr.cs j ts).map (fun t => tsFindRound t round) = some none) →
      (visitedTS sr.cs n ts).isSome →
      sr.extractLoop round epoch n ts = .error (.beaconNotFound round epoch) := by
  intro n
  induction n with
  | zero => intro ts _ _; rfl
  | succ n ih =>
    intro ts hnone hsome
    have h0 : tsFindRound ts round = none := by
      have := hnone 0 (Nat.succ_pos n)
      simp only [visitedTS, Option.map_some] at this
      exact Option.some.inj this
    cases hl : sr.cs.loadTipSet ts.parents with
    | none =>
      have : visitedTS sr.cs (n + 1) ts = none := by
        simp [visitedTS, hl]
      rw [this] at hsome
      simp at hsome
    | some next =>
      have hshift : ∀ k, visitedTS sr.cs (k + 1) ts = visitedTS sr.cs k next := by
        intro k
        simp [visitedTS, hl]
      have hgoal : sr.extractLoop round epoch (n + 1) ts
          = sr.extractLoop round epoch n next := by
        simp [StateRand.extractLoop, h0, hl]
      rw [hgoal]
      exact ih next
        (fun j hj => by rw [← hshift j]; exact hnone (j + 1) (Nat.succ_lt_succ hj))
        (by rw [← hshift n]; exact hsome)

/-- C3: the backward scan inspects the beacon entries of the first block of
each visited tipset, hopping to the parent each time; it returns the entry
matching the target round when one appears within the first 20 visited
tipsets (hops 1-20), and fails with the beacon-entry-not-found error when
no match appears there, even if one sits at hop 21. -/
theorem extractBeaconEntry_scan_bound (sr : StateRand) (fe : Int) (anchor : TipSet)
    (round : Nat)
    (hanchor : sr.GetBeaconRandomnessTipset fe false = .ok anchor)
    (hround : (sr.beacon.beaconForEpoch fe).maxBeaconRoundForEpoch
        (sr.networkVersionGetter fe) fe = round) :
    (∀ d v, d < 20 →
        (∀ j, j < d →
          (visitedTS sr.cs j anchor).map (fun t => tsFindRound t round) = some none) →
        (visitedTS sr.cs d anchor).map (fun t => tsFindRound t round) = some (some v) →
        sr.extractBeaconEntryForEpoch fe = .ok v ∧ v.round = round)
    ∧ ((∀ j, j < 20 →
          (visitedTS sr.cs j anchor).map (fun t => tsFindRound t round) = some none) →
        (visitedTS sr.cs 20 anchor).isSome →
        sr.extractBeaconEntryForEpoch fe = .error (.beaconNotFound round fe)) := by
  have hunf : sr.extractBeaconEntryForEpoch fe = sr.extractLoop round fe 20 anchor := by
    unfold StateRand.extractBeaconEntryForEpoch
    simp only [hanchor, hround]
  constructor
  · intro d v hd hnone hfind
    refine ⟨?_, ?_⟩
    · rw [hunf]
      exact extractLoop_found sr round fe d 20 anchor v hd hnone hfind
    · obtain ⟨t, ht, hf⟩ := Option.map_eq_some'.mp hfind
      exact tsFindRound_round hf
  · intro hnone hsome
    rw [hunf]
    exact extractLoop_notFound sr round fe 20 anchor hnone hsome

theorem extractBeaconEntry_scan_bound_witness :
    ((w3sr 19).extractBeaconEntryForEpoch 100 = .ok ⟨9, [42]⟩)
    ∧ ((w3sr 20).extractBeaconEntryForEpoch 100
        = .error (.beaconNotFound 9 100)) := by
  constructor
  · exact ((extractBeaconEntry_scan_bound (w3sr 19) 100 (w3tip 19 0) 9
      (by decide) (by decide)).1 19 ⟨9, [42]⟩ (by decide) (by decide) (by decide)).1
  · exact (extractBeaconEntry_scan_bound (w3sr 20) 100 (w3tip 20 0) 9
      (by decide) (by decide)).2 (by decide) (by decide)

theorem visitedTS_succ (cs : ChainStore) (j : Nat) :
    ∀ a, visitedTS cs (j + 1) a
      = (visitedTS cs j a).bind (fun t => cs.loadTipSet t.parents) := by
  induction j with
  | zero =>
    intro a
    cases hl : cs.loadTipSet a.parents <;> simp [visitedTS, hl]
  | succ j ih =>
    intro a
    rw [show visitedTS cs (j + 1 + 1) a
        = (match cs.loadTipSet a.parents with
           | none => none
           | some t => visitedTS cs (j + 1) t) from rfl]
    rw [show visitedTS cs (j + 1) a
        = (match cs.loadTipSet a.parents with
           | none => none
           | some t => visitedTS cs j t) from rfl]
    cases hl : cs.loadTipSet a.parents with
    | none => simp
    | some t => simp [ih t]

/-- C5: randomness for epoch `E` never reads chain data above `E`: the
anchor located for `E` sits at height at most `max E 0` (given the height
lookup honors its contract), and the backward scan only visits tipsets at
or below the anchor's height (given parent hops decrease height). -/
theorem randomness_no_lookahead (sr : StateRand) (E : Int) (lb : Bool) (a : TipSet)
    (hgts : ∀ h ts lb2 r, 0 ≤ h → sr.cs.getTipsetByHeight h ts lb2 = some r →
      r.height ≤ h)
    (ha : sr.GetBeaconRandomnessTipset E lb = .ok a)
    (hhop : ∀ j, j < 20 → hopOKb sr.cs a j = true) :
    a.height ≤ max E 0
    ∧ ∀ j, j ≤ 20 → ∀ t, visitedTS sr.cs j a = some t → t.height ≤ a.height := by
  constructor
  · unfold StateRand.GetBeaconRandomnessTipset at ha
    cases hload : sr.cs.loadTipSet sr.blks with
    | none => rw [hload] at ha; simp at ha
    | some ts =>
      rw [hload] at ha
      by_cases hgt : E > ts.height
      · simp [hgt] at ha
      · simp only [hgt, if_false, if_neg] at ha
        cases hl : sr.cs.getTipsetByHeight (if E < 0 then 0 else E) ts lb with
        | none => rw [hl] at ha; simp at ha
        | some r =>
          rw [hl] at ha
          have hr : r = a := by simpa using ha
          subst hr
          have h0 : (0 : Int) ≤ (if E < 0 then 0 else E) := by split <;> omega
          have hc := hgts (if E < 0 then 0 else E) ts lb r h0 hl
          have hm : (if E < 0 then (0 : Int) else E) ≤ max E 0 := by split <;> omega
          omega
  · intro j
    induction j with
    | zero =>
      intro _ t h0
      have hat : a = t := by simpa [visitedTS] using h0
      rw [← hat]
    | succ j ih =>
      intro hj t hvis
      rw [visitedTS_succ] at hvis
      cases hv : visitedTS sr.cs j a with
      | none => rw [hv] at hvis; simp at hvis
      | some t2 =>
        rw [hv] at hvis
        simp at hvis
        have hle2 : t2.height ≤ a.height := ih (by omega) t2 hv
        have hb := hhop j (by omega)
        unfold hopOKb at hb
        simp only [hv, hvis, decide_eq_true_eq] at hb
        omega

theorem randomness_no_lookahead_witness :
    ((wsr 15).GetBeaconRandomnessTipset 10 false = .ok wHead)
    ∧ wHead.height ≤ max 10 0
    ∧ wGenesis.height ≤ wHead.height := by
  have hg : ∀ h ts lb2 r, 0 ≤ h → (wsr 15).cs.getTipsetByHeight h ts lb2 = some r →
      r.height ≤ h := by
    intro h ts lb2 r h0 hr
    simp only [wsr, wStore] at hr
    by_cases hh : (10 : Int) ≤ h
    · rw [if_pos hh] at hr
      have he : wHead = r := Option.some.inj hr
      subst he
      simpa [wHead] using hh
    · rw [if_neg hh] at hr
      have he : wGenesis = r := Option.some.inj hr
      subst he
      simpa [wGenesis] using h0
  have h := randomness_no_lookahead (wsr 15) 10 false wHead hg (by decide) (by decide)
  refine ⟨by decide, h.1, ?_⟩
  exact h.2 1 (by omega) wGenesis (by decide)

/-- C8: constructing the randomness source under the alternate (Mir)
consensus algorithm logs the danger banner and returns the insecure
`fakeRand` bypass, which answers every request with the same fixed
non-chain-derived value; under the default consensus algorithm it returns
the chain-derived `stateRand` over the given collaborators, never the
bypass. -/
theorem newStateRand_consensus_dispatch (cs : ChainStore) (blks : TipSetKey)
    (b : BeaconSchedule) (nvg : NetworkVersionGetter) :
    (NewStateRand .mirConsensus cs blks b nvg = ([mirDangerWarning], .fakeRand)
      ∧ mirDangerWarning ≠ ""
      ∧ (∀ pers fe entropy,
          VMRand.fakeRand.GetChainRandomness pers fe entropy = .ok fakeRandValue
          ∧ VMRand.fakeRand.GetBeaconRandomness pers fe entropy = .ok fakeRandValue))
    ∧ NewStateRand .defaultConsensus cs blks b nvg = ([], .stateRand ⟨cs, blks, b, nvg⟩)
    ∧ (NewStateRand .defaultConsensus cs blks b nvg).2 ≠ .fakeRand := by
  refine ⟨⟨rfl, by decide, fun _ _ _ => ⟨rfl, rfl⟩⟩, rfl, ?_⟩
  simp [NewStateRand]

theorem newStateRand_consensus_dispatch_witness :
    NewStateRand .mirConsensus wStore [] wSchedule (fun _ => 14)
      = ([mirDangerWarning], .fakeRand)
    ∧ VMRand.fakeRand.GetChainRandomness 2 3 [1] = .ok fakeRandValue :=
  ⟨(newStateRand_consensus_dispatch wStore [] wSchedule (fun _ => 14)).1.1,
   ((newStateRand_consensus_dispatch wStore [] wSchedule (fun _ => 14)).1.2.2 2 3 [1]).1⟩
